import Mathlib

/-!
Verification of the RPC dispatch core of django-modern-rpc (modernrpc/core.py
and modernrpc/system_methods.py), as a shallow embedding in Lean 4.

Python values are embedded explicitly: a decorated function together with the
attributes set on it by the `@rpc_method` decorator becomes the structure
`ProcDecl`; the `entry_point` / `protocol` attributes, which in Python are
either the special string ALL, a single string, or a list of strings, become
the inductive `FieldVal`; fallible Python code (code that may raise) returns
`Except String _`; the registry dict, whose keys are unique and whose
iteration order is insertion order, becomes an association list with unique
keys. Machine integers do not occur: Python integers are unbounded, so `Int`
models them exactly.
-/

namespace ModernRpc

/-- Special constant meaning "all protocols" or "all entry points"
(core.py line 14: `ALL = "__all__"`). -/
def ALL : String := "__all__"

/-- A Python value stored in the `modernrpc_entry_point` / `modernrpc_protocol`
attribute: either the special string ALL, a single other string, or a list of
strings. One Python value corresponds to one `FieldVal`; the string `ALL`
itself is encoded by either `.all` or `.one ALL`, and `fieldIsALL` treats the
two encodings alike, mirroring Python string equality. -/
inductive FieldVal where
  | all : FieldVal
  | one (s : String) : FieldVal
  | many (l : List String) : FieldVal
deriving DecidableEq, Repr

/-- Python `self.protocol == ALL`: string equality with the ALL constant.
A list value never equals a string in Python. -/
def fieldIsALL : FieldVal → Bool
  | .all => true
  | .one s => s == ALL
  | .many _ => false

/-- Modelled from the spec: `ensure_sequence` lives in modernrpc/helpers.py,
which is absent from src/. Spec section 4.1 describes the descriptor's
entry_point/protocol value as "possibly single-valued, normalized to a
sequence"; a value that is already a sequence is returned as is, a single
value is wrapped in a one-element sequence. -/
def ensure_sequence : FieldVal → List String
  | .all => [ALL]
  | .one s => [s]
  | .many l => l

/-- Modelled from the spec: the Introspector and the docstring parser live in
modernrpc/introspection.py, which is absent from src/. Spec section 6
describes their outputs, consumed by the core as opaque fields: the ordered
list of argument names, per-argument type-hint strings keyed by argument name
(one mapping from the doc comment, one from structural introspection), and the
two return-type strings. An absent entry is the empty string, matching the
`.get(arg, "")` defaults in core.py `args_doc` / `return_doc`. -/
structure MethodMeta where
  intro_args : List String
  dp_args_types : List (String × String)
  intro_args_types : List (String × String)
  dp_return_type : String
  intro_return_type : String
deriving DecidableEq, Repr

/-- Python `d.get(key, "")` over a string-keyed mapping embedded as an
association list. -/
def assocGetD (assoc : List (String × String)) (key : String) : String :=
  ((assoc.find? (fun p => p.1 == key)).map (fun p => p.2)).getD ""

/-- Python `x or y` on strings: the empty string is falsy. -/
def pyOrStr (x y : String) : String :=
  if x = "" then y else x

/-- The "type" field of each entry of `RPCMethod.args_doc` (core.py lines
126-134), in declaration order: for each argument, the doc-comment type if
non-empty, else the introspected type. -/
def MethodMeta.args_doc_types (m : MethodMeta) : List String :=
  m.intro_args.map (fun arg =>
    pyOrStr (assocGetD m.dp_args_types arg) (assocGetD m.intro_args_types arg))

/-- The "type" field of `RPCMethod.return_doc` (core.py lines 136-141). -/
def MethodMeta.return_doc_type (m : MethodMeta) : String :=
  pyOrStr m.dp_return_type m.intro_return_type

/-- A Python function object after decoration by `@rpc_method` (core.py lines
290-318): its identity (`id`), its `__name__`, and the `modernrpc_*`
attributes the decorator and the auth helpers set on it, plus the
introspection data derived from its declaration. Python compares function
objects by identity, which structural equality of this record models: two
distinct function objects are records differing at least in `id`. -/
structure ProcDecl where
  id : Nat
  funcName : String
  modernrpc_enabled : Bool
  modernrpc_name : Option String
  modernrpc_entry_point : FieldVal
  modernrpc_protocol : FieldVal
  modernrpc_auth_predicates : Option (List Nat)
  modernrpc_auth_predicates_params : List (List Int)
  introspection : MethodMeta
deriving DecidableEq, Repr

/-- `RPCMethod.__init__` (core.py lines 31-45): stores the function reference
and copies the decorator attributes. `predicates` holds opaque handles to the
predicate callables (compared by identity, as Python compares function
references). -/
structure RPCMethod where
  function : ProcDecl
  entry_point : FieldVal
  protocol : FieldVal
  predicates : Option (List Nat)
  predicates_params : List (List Int)
  introspector : MethodMeta
deriving DecidableEq, Repr

/-- `RPCMethod(func)`: each field read from the function's attributes. -/
def RPCMethod.ofDecl (func : ProcDecl) : RPCMethod :=
  { function := func
    entry_point := func.modernrpc_entry_point
    protocol := func.modernrpc_protocol
    predicates := func.modernrpc_auth_predicates
    predicates_params := func.modernrpc_auth_predicates_params
    introspector := func.introspection }

/-- `RPCMethod.name` (core.py lines 47-49):
`getattr(self.function, 'modernrpc_name', self.function.__name__)`. -/
def RPCMethod.name (m : RPCMethod) : String :=
  m.function.modernrpc_name.getD m.function.funcName

/-- `RPCMethod.__eq__` (core.py lines 57-64): conjunction of equality of the
function reference, name, entry point, protocol, predicates and predicate
parameters. -/
def RPCMethod.pyEq (a b : RPCMethod) : Bool :=
  decide (a.function = b.function ∧ a.name = b.name ∧
    a.entry_point = b.entry_point ∧ a.protocol = b.protocol ∧
    a.predicates = b.predicates ∧ a.predicates_params = b.predicates_params)

/-- `RPCMethod.available_for_protocol` (core.py lines 79-83):
`if ALL in (self.protocol, protocol): return True` then membership in the
normalized sequence. -/
def RPCMethod.available_for_protocol (m : RPCMethod) (protocol : String) : Bool :=
  if fieldIsALL m.protocol || protocol == ALL then true
  else (ensure_sequence m.protocol).contains protocol

/-- `RPCMethod.available_for_entry_point` (core.py lines 85-89). -/
def RPCMethod.available_for_entry_point (m : RPCMethod) (entry_point : String) : Bool :=
  if fieldIsALL m.entry_point || entry_point == ALL then true
  else (ensure_sequence m.entry_point).contains entry_point

/-- `RPCMethod.is_valid_for` (core.py lines 91-94). -/
def RPCMethod.is_valid_for (m : RPCMethod) (entry_point protocol : String) : Bool :=
  m.available_for_entry_point entry_point && m.available_for_protocol protocol

/-- The registry dict `_RPCRegistry._registry` (core.py line 147): name to
method, unique keys, insertion order. -/
abbrev Registry : Type := List (String × RPCMethod)

/-- `name in self._registry and self._registry[name]`: first (only) entry
under the key. -/
def lookupName (reg : Registry) (name : String) : Option RPCMethod :=
  ((List.find? (fun p => p.1 == name) reg).map (fun p => p.2))

/-- `_RPCRegistry.get_method` (core.py lines 222-228). -/
def get_method (reg : Registry) (name : String) (entry_point protocol : String) :
    Option RPCMethod :=
  match lookupName reg name with
  | some m => if m.is_valid_for entry_point protocol then some m else none
  | none => none

/-- `_RPCRegistry.total_count` (core.py lines 197-198). -/
def total_count (reg : Registry) : Nat :=
  List.length reg

/-- The resolved external name (core.py line 166):
`getattr(func, 'modernrpc_name', func.__name__)`. -/
def ProcDecl.resolvedName (func : ProcDecl) : String :=
  func.modernrpc_name.getD func.funcName

/-- `_RPCRegistry.register_method` (core.py lines 152-195). The pair returned
models the Python call's effect: outcome (the registered name, or the message
of the `ImproperlyConfigured` error raised) and the registry state after the
call. -/
def register_method (func : ProcDecl) (reg : Registry) :
    Except String String × Registry :=
  if !func.modernrpc_enabled then
    (.error ("Error: trying to register " ++ func.funcName ++
      " as RPC method, but it has not been decorated."), reg)
  else
    let name := func.resolvedName
    if name.startsWith "rpc." then
      (.error "method names starting with rpc. are reserved", reg)
    else
      let method := RPCMethod.ofDecl func
      match get_method reg method.name ALL ALL with
      | some existing_method =>
        if method.pyEq existing_method then
          (.ok method.name, reg)
        else
          (.error ("A RPC method with name " ++ method.name ++
            " has already been registered"), reg)
      | none =>
        (.ok method.name, reg ++ [(method.name, method)])

/-- Lexicographic insertion into a sorted list of names, used to model
Python's `sorted(...)`. -/
def insertSortedName (s : String) : List String → List String
  | [] => [s]
  | t :: ts => if s ≤ t then s :: t :: ts else t :: insertSortedName s ts

/-- Python `sorted(names)`. -/
def sortNames (l : List String) : List String :=
  l.foldr insertSortedName []

/-- Python `sorted(self._registry.items())`: item tuples compared by their
first component (names are unique, so the second component never decides). -/
def insertSortedItem (p : String × RPCMethod) :
    List (String × RPCMethod) → List (String × RPCMethod)
  | [] => [p]
  | q :: qs => if p.1 ≤ q.1 then p :: q :: qs else q :: insertSortedItem p qs

def sortItems (reg : Registry) : List (String × RPCMethod) :=
  List.foldr insertSortedItem [] reg

/-- `_RPCRegistry.get_all_method_names` (core.py lines 200-210). -/
def get_all_method_names (reg : Registry) (entry_point protocol : String)
    (sort_methods : Bool) : List String :=
  let method_names :=
    (List.filter (fun p => (p.2).is_valid_for entry_point protocol) reg).map
      (fun p => p.1)
  if sort_methods then sortNames method_names else method_names

/-- `_RPCRegistry.get_all_methods` (core.py lines 212-220). Note the source:
when `sort_methods` is true, the sorted items are filtered with
`is_valid_for`; when it is false, the function returns
`self._registry.values()` with no filtering at all. -/
def get_all_methods (reg : Registry) (entry_point protocol : String)
    (sort_methods : Bool) : List RPCMethod :=
  if sort_methods then
    (List.filter (fun p => (p.2).is_valid_for entry_point protocol)
      (sortItems reg)).map (fun p => p.2)
  else
    reg.map (fun p => p.2)

/-! ### Authorization (`RPCMethod.check_permissions`, core.py lines 66-77)

For the registry embedding above, predicate callables are opaque handles,
compared by identity, which is all `register_method` needs. To state what
`check_permissions` computes, the predicates must be applied, so this section
embeds the two attributes it reads (`self.predicates`,
`self.predicates_params`) with the predicates as actual boolean functions of
the request and their bound parameter tuple. -/

/-- The opaque request object passed as first argument to each predicate. -/
abbrev Ctx : Type := Nat

/-- A predicate callable: `predicate(request, *params)`. The parameter tuple
is passed whole; Python unpacking does not change which values reach the
predicate. -/
abbrev AuthPredicate : Type := Ctx → List Int → Bool

/-- The generator consumed by `all(...)` in core.py lines 74-77, walked in
index order: for the i-th predicate, `self.predicates_params[i]` is evaluated
first — an `IndexError` propagates if the parameter list is exhausted — then
the predicate is called; a false predicate makes `all` return False without
consuming further items. -/
def runPredicates (request : Ctx) :
    List AuthPredicate → List (List Int) → Except String Bool
  | [], _ => .ok true
  | _ :: _, [] => .error "IndexError: tuple index out of range"
  | p :: ps, q :: qs =>
    if p request q then runPredicates request ps qs else .ok false

/-- The two attributes `check_permissions` reads from the descriptor. -/
structure AuthView where
  predicates : Option (List AuthPredicate)
  predicates_params : List (List Int)

/-- `RPCMethod.check_permissions` (core.py lines 66-77): `if not
self.predicates: return True` — true for both an absent (None) and an empty
predicate list — then the conjunction over the enumerated predicates. -/
def AuthView.check_permissions (m : AuthView) (request : Ctx) :
    Except String Bool :=
  match m.predicates with
  | none => .ok true
  | some [] => .ok true
  | some ps => runPredicates request ps m.predicates_params

/-! ### Request and result envelopes (core.py lines 234-287) -/

/-- A scalar Python value carried in request parameters and result
payloads. -/
inductive PyVal where
  | int (n : Int) : PyVal
  | str (s : String) : PyVal
deriving DecidableEq, Repr

/-- The `params` argument of `RpcRequest.__init__`, by the shape the
`isinstance` checks test: a dict, a list, a set, a tuple, or a value of any
other type (named by its Python type, for the error message). -/
inductive PyParams where
  | pdict (entries : List (String × PyVal)) : PyParams
  | plist (elems : List PyVal) : PyParams
  | pset (elems : List PyVal) : PyParams
  | ptuple (elems : List PyVal) : PyParams
  | other (typeName : String) : PyParams
deriving DecidableEq, Repr

/-- `isinstance(params, dict)`. -/
def PyParams.isMapping : PyParams → Bool
  | .pdict _ => true
  | _ => false

/-- `isinstance(params, (list, set, tuple))`. -/
def PyParams.isSequenceLike : PyParams → Bool
  | .plist _ => true
  | .pset _ => true
  | .ptuple _ => true
  | _ => false

/-- The entries of a dict-shaped params value (empty for other shapes). -/
def PyParams.dictEntries : PyParams → List (String × PyVal)
  | .pdict kw => kw
  | _ => []

/-- The elements of a sequence-shaped params value (empty for other
shapes). -/
def PyParams.seqElems : PyParams → List PyVal
  | .plist l => l
  | .pset l => l
  | .ptuple l => l
  | _ => []

/-- `RpcRequest` (core.py lines 234-252) after construction. -/
structure RpcRequest where
  method_name : String
  request_id : Option Int
  args : List PyVal
  kwargs : List (String × PyVal)
deriving DecidableEq, Repr

/-- `RpcRequest.__init__` (core.py lines 237-252): `request_id = None`, both
containers empty, then exactly one of them filled from `params`; a params
value that is neither a dict nor a list/set/tuple raises `ValueError`. The
trailing `**kwargs` loop is not exercised by any caller embedded here. -/
def RpcRequest.make (method_name : String) (params : Option PyParams) :
    Except String RpcRequest :=
  match params with
  | none => .ok ⟨method_name, none, [], []⟩
  | some p =>
    match p with
    | .pdict kw => .ok ⟨method_name, none, [], kw⟩
    | .plist l => .ok ⟨method_name, none, l, []⟩
    | .pset l => .ok ⟨method_name, none, l, []⟩
    | .ptuple l => .ok ⟨method_name, none, l, []⟩
    | .other typeName =>
      .error ("RPCRequest initial params has an unsupported type: " ++ typeName)

/-- The value of the private `_data` slot of `RpcResult`: `None` at
construction, the success payload after `set_success`, the
`(code, message, data)` tuple after `set_error`. -/
inductive RRData where
  | noneD : RRData
  | payload (v : PyVal) : RRData
  | triple (code : Int) (message : String) (data : Option PyVal) : RRData
deriving DecidableEq, Repr

/-- `RpcResult` (core.py lines 255-287). `_response_is_error` starts as
`None` (no outcome yet), and becomes `False` / `True` on `set_success` /
`set_error`. -/
structure RpcResult where
  request_id : Option Int
  response_is_error : Option Bool
  rdata : RRData
deriving DecidableEq, Repr

/-- `RpcResult.__init__`. -/
def RpcResult.init (request_id : Option Int) : RpcResult :=
  ⟨request_id, none, .noneD⟩

/-- `RpcResult.is_error`. -/
def RpcResult.is_error (r : RpcResult) : Option Bool :=
  r.response_is_error

/-- `RpcResult.set_success` (core.py lines 265-267). -/
def RpcResult.set_success (r : RpcResult) (data : PyVal) : RpcResult :=
  { r with response_is_error := some false, rdata := .payload data }

/-- `RpcResult.set_error` (core.py lines 269-271). -/
def RpcResult.set_error (r : RpcResult) (code : Int) (message : String)
    (data : Option PyVal) : RpcResult :=
  { r with response_is_error := some true, rdata := .triple code message data }

/-- `RpcResult.success_data` (core.py lines 273-275): returns `self._data`
unchecked, whatever it holds. -/
def RpcResult.success_data (r : RpcResult) : RRData :=
  r.rdata

/-- `RpcResult.error_code` (core.py lines 277-279): `self._data[0]`;
subscripting anything but the error tuple raises. -/
def RpcResult.error_code (r : RpcResult) : Except String Int :=
  match r.rdata with
  | .triple code _ _ => .ok code
  | _ => .error "TypeError: _data is not the error tuple"

/-- `RpcResult.error_message` (core.py lines 281-283): `self._data[1]`. -/
def RpcResult.error_message (r : RpcResult) : Except String String :=
  match r.rdata with
  | .triple _ message _ => .ok message
  | _ => .error "TypeError: _data is not the error tuple"

/-! ### system.multicall (system_methods.py lines 68-100) -/

/-- One element of the `calls` list: `call['methodName']` (every descriptor
carries one, as the spec requires of call descriptors) and `call.get('params')`
(absent key gives None). -/
structure CallDesc where
  methodName : String
  params : Option PyParams
deriving Repr

/-- The first argument of `system.multicall` as received from the wire: a
list, or a value of any other Python type (named for the error message). -/
inductive MulticallArg where
  | lst (calls : List CallDesc) : MulticallArg
  | nonList (typeName : String) : MulticallArg

/-- One element of the list `system.multicall` returns: the
`{'faultCode': ..., 'faultString': ...}` dict, or the one-element list
wrapping `rpc_result.success_data`. -/
inductive MCEntry where
  | fault (faultCode : Int) (faultString : String) : MCEntry
  | success (wrapped : List RRData) : MCEntry
deriving DecidableEq, Repr

/-- Python truthiness of the `is_error()` value: `None` and `False` are
falsy. -/
def pyTruthy : Option Bool → Bool
  | some true => true
  | _ => false

/-- One iteration of the loop in system_methods.py lines 84-98: build the
`RpcRequest` (its constructor may raise), dispatch it through the handler,
then append either the fault dict (reading `error_code` / `error_message`,
which raise on a result holding no error tuple) or the wrapped success
payload. -/
def multicallStep (process : RpcRequest → RpcResult) (call : CallDesc) :
    Except String MCEntry :=
  match RpcRequest.make call.methodName call.params with
  | .error e => .error e
  | .ok rpc_request =>
    let rpc_result := process rpc_request
    if pyTruthy rpc_result.is_error then
      match rpc_result.error_code, rpc_result.error_message with
      | .ok code, .ok message => .ok (.fault code message)
      | .error e, _ => .error e
      | _, .error e => .error e
    else
      .ok (.success [rpc_result.success_data])

/-- The loop of system_methods.py lines 84-98 over the whole calls list; an
exception raised in an iteration propagates, abandoning the remaining
calls. -/
def multicallList (process : RpcRequest → RpcResult) :
    List CallDesc → Except String (List MCEntry)
  | [] => .ok []
  | call :: rest =>
    match multicallStep process call with
    | .error e => .error e
    | .ok entry =>
      match multicallList process rest with
      | .error e => .error e
      | .ok l => .ok (entry :: l)

/-- `__system_multi_call` (system_methods.py lines 68-100), parametric in the
handler's `process_request` (modernrpc/handlers is absent from src/; spec
section 4.3 describes it as running the full dispatch pipeline and returning
an `RpcResult`). -/
def system_multi_call (process : RpcRequest → RpcResult) :
    MulticallArg → Except String (List MCEntry)
  | .nonList typeName =>
    .error ("system.multicall first argument should be a list, " ++ typeName ++
      " given.")
  | .lst calls => multicallList process calls

/-! ### system.methodSignature (system_methods.py lines 21-47) -/

/-- `__system_method_signature`: resolve the named method for the caller's
entry point and protocol (invalid-params fault when not found), then the
return type followed by each argument's type, with falsy (empty) entries
filtered out. -/
def system_method_signature (reg : Registry) (method_name : String)
    (entry_point protocol : String) : Except String (List String) :=
  match get_method reg method_name entry_point protocol with
  | none =>
    .error ("Unknown method " ++ method_name ++ ". Unable to retrieve signature.")
  | some method =>
    .ok ((method.introspector.return_doc_type ::
      method.introspector.args_doc_types).filter (fun t => t != ""))

/-! ## Helper lemmas -/

/-- With the ALL wildcard on the request side, `is_valid_for` always holds:
both availability checks succeed through their `ALL in (...)` branch. -/
theorem is_valid_for_ALL_ALL (m : RPCMethod) : m.is_valid_for ALL ALL = true := by
  simp [RPCMethod.is_valid_for, RPCMethod.available_for_entry_point,
    RPCMethod.available_for_protocol]

/-- `get_method` with both wildcards is a plain name lookup. -/
theorem get_method_ALL_ALL (reg : Registry) (name : String) :
    get_method reg name ALL ALL = lookupName reg name := by
  unfold get_method
  cases h : lookupName reg name with
  | none => rfl
  | some m => simp [is_valid_for_ALL_ALL]

/-- Appending a fresh key to the registry makes it findable. -/
theorem lookupName_append_self (reg : Registry) (name : String) (m : RPCMethod)
    (h : lookupName reg name = none) :
    lookupName (reg ++ [(name, m)]) name = some m := by
  unfold lookupName at h ⊢
  rw [List.find?_append]
  cases hf : List.find? (fun p => p.1 == name) reg with
  | none => simp [List.find?]
  | some p => rw [hf] at h; simp at h

/-- The generator of `check_permissions`, when the parameter list is long
enough, computes the conjunction of the index-matched predicate
applications. -/
theorem runPredicates_eq_all (request : Ctx) (ps : List AuthPredicate)
    (qs : List (List Int)) (h : ps.length ≤ qs.length) :
    runPredicates request ps qs =
      .ok ((ps.zip qs).all (fun pq => pq.1 request pq.2)) := by
  induction ps generalizing qs with
  | nil => simp [runPredicates]
  | cons p ps ih =>
    cases qs with
    | nil => simp at h
    | cons q qs =>
      simp only [List.length_cons, Nat.add_le_add_iff_right] at h
      by_cases hp : p request q = true
      · simp [runPredicates, hp, ih qs h]
      · simp [runPredicates, hp]

/-- The generator of `check_permissions`, when the predicate list is longer
than the parameter list and every index-matched application returns true,
runs off the end of the parameter list. -/
theorem runPredicates_overrun (request : Ctx) (ps : List AuthPredicate)
    (qs : List (List Int)) (h : qs.length < ps.length)
    (hall : (ps.zip qs).all (fun pq => pq.1 request pq.2) = true) :
    runPredicates request ps qs = .error "IndexError: tuple index out of range" := by
  induction ps generalizing qs with
  | nil => simp at h
  | cons p ps ih =>
    cases qs with
    | nil => rfl
    | cons q qs =>
      simp only [List.zip_cons_cons, List.all_cons, Bool.and_eq_true] at hall
      simp only [List.length_cons, Nat.add_lt_add_iff_right] at h
      simp [runPredicates, hall.1, ih qs h hall.2]

/-! ## Claim theorems -/

/-- C1: for every registered name and every entry_point/protocol pair
(wildcards included), `get_method` returns the stored descriptor iff one is
stored under the name and `is_valid_for` holds for the pair, and the
not-found sentinel in every other case. (The embedding is a total function:
no exception can escape.) -/
theorem get_method_resolves_iff_valid (reg : Registry)
    (name entry_point protocol : String) :
    (∀ m, get_method reg name entry_point protocol = some m ↔
      (lookupName reg name = some m ∧ m.is_valid_for entry_point protocol = true))
    ∧ (get_method reg name entry_point protocol = none ↔
      ∀ m, lookupName reg name = some m →
        m.is_valid_for entry_point protocol = false) := by
  constructor
  · intro m
    unfold get_method
    cases h : lookupName reg name with
    | none => simp
    | some m0 =>
      by_cases hv : m0.is_valid_for entry_point protocol = true
      · simp only [hv, if_true]
        constructor
        · intro he
          cases he
          exact ⟨rfl, hv⟩
        · intro ⟨he, _⟩
          cases he
          rfl
      · simp only [hv, if_false]
        constructor
        · intro he
          cases he
        · intro ⟨he, hv2⟩
          cases he
          exact absurd hv2 hv
  · unfold get_method
    cases h : lookupName reg name with
    | none => simp
    | some m0 =>
      by_cases hv : m0.is_valid_for entry_point protocol = true
      · simp only [hv, if_true]
        constructor
        · intro he
          cases he
        · intro hall
          have := hall m0 rfl
          rw [hv] at this
          cases this
      · simp only [Bool.not_eq_true] at hv
        simp only [hv, Bool.false_eq_true, if_false, true_iff]
        intro m he
        cases he
        exact hv

/-- C3: `check_permissions` returns true when no predicates are configured
(absent or empty list), and otherwise — whenever each predicate has an
index-matched parameter tuple — returns exactly the conjunction of the
predicates applied to the caller context and their bound parameters. -/
theorem check_permissions_conjunction (m : AuthView) (request : Ctx)
    (h : (m.predicates.getD []).length ≤ m.predicates_params.length) :
    m.check_permissions request =
      .ok (((m.predicates.getD []).zip m.predicates_params).all
        (fun pq => pq.1 request pq.2)) := by
  cases hp : m.predicates with
  | none => simp [AuthView.check_permissions, hp]
  | some ps =>
    cases ps with
    | nil => simp [AuthView.check_permissions, hp]
    | cons p ps =>
      rw [hp] at h
      simp only [Option.getD_some] at h ⊢
      unfold AuthView.check_permissions
      rw [hp]
      exact runPredicates_eq_all request (p :: ps) m.predicates_params h

/-- Witness for C3 at a concrete input: one always-positive predicate with
one bound parameter tuple, evaluating to an authorized outcome. -/
theorem check_permissions_conjunction_witness :
    AuthView.check_permissions ⟨some [fun _ q => decide (0 < q.headD 0)], [[1]]⟩ 0 =
      .ok true := by
  have h := check_permissions_conjunction
    ⟨some [fun _ q => decide (0 < q.headD 0)], [[1]]⟩ 0 (by simp)
  simpa using h

/-- C9: constructing an `RpcRequest` with supplied parameters fills exactly
one of `args`/`kwargs`: a mapping goes to `kwargs` with `args` left empty, a
list/set/tuple goes to `args` with `kwargs` left empty, and any other
parameters value makes the constructor raise instead of producing a
request. -/
theorem rpcRequest_params_exclusive (name : String) (p : PyParams) :
    (p.isMapping = true →
      RpcRequest.make name (some p) = .ok ⟨name, none, [], p.dictEntries⟩)
    ∧ (p.isSequenceLike = true →
      RpcRequest.make name (some p) = .ok ⟨name, none, p.seqElems, []⟩)
    ∧ (p.isMapping = false → p.isSequenceLike = false →
      ∃ e, RpcRequest.make name (some p) = .error e) := by
  cases p <;>
    simp [RpcRequest.make, PyParams.isMapping, PyParams.isSequenceLike,
      PyParams.dictEntries, PyParams.seqElems]

/-- C7 counterexample: the outcome of an `RpcResult` is not write-once — a
second setter call on the same instance changes the held outcome from the
success payload to an error triple. -/
theorem rpcResult_overwrite_counterexample :
    ((RpcResult.init none).set_success (.int 1)).is_error = some false
    ∧ ((RpcResult.init none).set_success (.int 1)).rdata = RRData.payload (.int 1)
    ∧ (((RpcResult.init none).set_success (.int 1)).set_error 5 "boom" none).is_error =
        some true
    ∧ (((RpcResult.init none).set_success (.int 1)).set_error 5 "boom" none).rdata =
        RRData.triple 5 "boom" none :=
  ⟨rfl, rfl, rfl, rfl⟩

/-- C7 amended: an `RpcResult` starts with no outcome (`is_error()` is the
None sentinel); after `set_success` it holds exactly the success payload with
`is_error()` false, after `set_error` exactly the error triple with
`is_error()` true — one outcome at a time, reflected by `is_error()` — but
the setters do not enforce write-once: the latest setter call determines the
held outcome, whatever was held before. -/
theorem rpcResult_outcome_spec (r : RpcResult) (v : PyVal) (code : Int)
    (message : String) (d : Option PyVal) :
    (RpcResult.init r.request_id).is_error = none
    ∧ (r.set_success v).is_error = some false
    ∧ (r.set_success v).rdata = RRData.payload v
    ∧ (r.set_error code message d).is_error = some true
    ∧ (r.set_error code message d).rdata = RRData.triple code message d
    ∧ ((r.set_success v).set_error code message d).rdata = RRData.triple code message d
    ∧ ((r.set_error code message d).set_success v).rdata = RRData.payload v :=
  ⟨rfl, rfl, rfl, rfl, rfl, rfl, rfl⟩

/-- Introspection data of a method with no documented or introspected
types. -/
def emptyMeta : MethodMeta := ⟨[], [], [], "", ""⟩

/-- A declaration restricted to the single entry point "ep1". -/
def ep1Decl : ProcDecl :=
  ⟨1, "m1", true, none, .one "ep1", .all, none, [], emptyMeta⟩

def ep1Method : RPCMethod := RPCMethod.ofDecl ep1Decl

/-- C6 (code bug): `get_all_methods` with `sort_methods` false returns the
raw registry values without applying the `is_valid_for` filter its own
docstring (and `get_all_method_names`, and its sorted branch) promise: a
method valid only for entry point "ep1" is returned for a query about entry
point "ep2", while `get_all_method_names` returns nothing for the same
query. -/
theorem get_all_methods_unsorted_ignores_filter :
    RPCMethod.is_valid_for ep1Method "ep2" ALL = false
    ∧ get_all_methods [("m1", ep1Method)] "ep2" ALL false = [ep1Method]
    ∧ get_all_method_names [("m1", ep1Method)] "ep2" ALL false = []
    ∧ get_all_methods [("m1", ep1Method)] "ep2" ALL true = [] := by
  refine ⟨by decide, rfl, by decide, by decide⟩

/-- C10: when the configured predicate list is strictly longer than the
parameter-tuple list and every predicate that does have an index-matched
parameter tuple returns true, `check_permissions` runs off the end of the
parameter list and raises instead of returning a boolean. (Under the length
precondition, `check_permissions_conjunction` shows the result is always a
boolean, so the error branch is unreachable.) -/
theorem check_permissions_partial_raises (m : AuthView) (request : Ctx)
    (ps : List AuthPredicate) (hp : m.predicates = some ps)
    (hlen : m.predicates_params.length < ps.length)
    (hall : (ps.zip m.predicates_params).all (fun pq => pq.1 request pq.2) = true) :
    m.check_permissions request = .error "IndexError: tuple index out of range" := by
  unfold AuthView.check_permissions
  rw [hp]
  cases ps with
  | nil => simp at hlen
  | cons p ps =>
    show runPredicates request (p :: ps) m.predicates_params = _
    exact runPredicates_overrun request _ _ hlen hall

/-- Witness for C10 at a concrete input: two always-true predicates but a
single parameter tuple — evaluation raises at index 1. -/
theorem check_permissions_partial_raises_witness :
    AuthView.check_permissions
      ⟨some [fun _ _ => true, fun _ _ => true], [[1]]⟩ 0 =
      .error "IndexError: tuple index out of range" :=
  check_permissions_partial_raises
    ⟨some [fun _ _ => true, fun _ _ => true], [[1]]⟩ 0
    [fun _ _ => true, fun _ _ => true] rfl (by simp) (by simp)

/-- Introspection data for a method of return type `int` with one argument
`x` whose doc comment declares the type `int`. -/
def addMeta : MethodMeta := ⟨["x"], [("x", "int")], [], "int", ""⟩

def addDecl : ProcDecl := ⟨2, "add", true, none, .all, .all, none, [], addMeta⟩

def untypedDecl : ProcDecl :=
  ⟨3, "untyped", true, none, .all, .all, none, [], emptyMeta⟩

/-- A registry holding the two example methods of the spec's
`system.methodSignature` test. -/
def sigExampleReg : Registry :=
  [("add", RPCMethod.ofDecl addDecl), ("untyped", RPCMethod.ofDecl untypedDecl)]

/-- C8: `system.methodSignature` returns, for every method it resolves for
the caller's entry point and protocol, the return type followed by each
argument's type in declaration order with falsy (empty) type strings filtered
out; when the name does not resolve it raises the invalid-params fault. At
the spec's concrete examples: an `int -> int` method yields
`["int", "int"]`, a method with no declared types yields `[]`. -/
theorem method_signature_spec (reg : Registry)
    (method_name entry_point protocol : String) :
    ((∀ m, get_method reg method_name entry_point protocol = some m →
        system_method_signature reg method_name entry_point protocol =
          .ok ((m.introspector.return_doc_type ::
            m.introspector.args_doc_types).filter (fun t => t != "")))
      ∧ (get_method reg method_name entry_point protocol = none →
        ∃ e, system_method_signature reg method_name entry_point protocol =
          .error e))
    ∧ system_method_signature sigExampleReg "add" ALL ALL = .ok ["int", "int"]
    ∧ system_method_signature sigExampleReg "untyped" ALL ALL = .ok []
    ∧ ∃ e, system_method_signature sigExampleReg "missing" ALL ALL = .error e := by
  refine ⟨⟨?_, ?_⟩, rfl, rfl, by exact ⟨_, rfl⟩⟩
  · intro m hm
    unfold system_method_signature
    rw [hm]
  · intro hm
    unfold system_method_signature
    rw [hm]
    exact ⟨_, rfl⟩

/-- The name an `RPCMethod` reports is the resolved name of its
declaration. -/
theorem ofDecl_name (func : ProcDecl) :
    (RPCMethod.ofDecl func).name = func.resolvedName := rfl

/-- Python `__eq__` on descriptors compares names. -/
theorem pyEq_name {a b : RPCMethod} (h : a.pyEq b = true) : a.name = b.name := by
  simp only [RPCMethod.pyEq, decide_eq_true_eq] at h
  exact h.2.1

/-- Python `__eq__` on descriptors is transitive. -/
theorem pyEq_trans {a b c : RPCMethod} (h1 : a.pyEq b = true)
    (h2 : b.pyEq c = true) : a.pyEq c = true := by
  simp only [RPCMethod.pyEq, decide_eq_true_eq] at h1 h2 ⊢
  exact ⟨h1.1.trans h2.1, h1.2.1.trans h2.2.1, h1.2.2.1.trans h2.2.2.1,
    h1.2.2.2.1.trans h2.2.2.2.1, h1.2.2.2.2.1.trans h2.2.2.2.2.1,
    h1.2.2.2.2.2.trans h2.2.2.2.2.2⟩

/-- Registering an enabled, unreserved declaration whose built descriptor
equals one already stored under its resolved name is a no-op returning that
name. -/
theorem register_method_finds_equal (func : ProcDecl) (reg : Registry)
    (ex : RPCMethod) (hen : func.modernrpc_enabled = true)
    (hpre : func.resolvedName.startsWith "rpc." = false)
    (hl : lookupName reg func.resolvedName = some ex)
    (hex : (RPCMethod.ofDecl func).pyEq ex = true) :
    register_method func reg = (.ok func.resolvedName, reg) := by
  simp [register_method, hen, hpre, get_method_ALL_ALL, ofDecl_name, hl, hex]

/-- C5: `register_method` raises a configuration error iff the declaration is
not marked RPC-eligible, or its resolved name starts with the reserved
prefix, or a non-equal descriptor is already stored under the name; and in
every error case the registry is returned unchanged (no insertion). -/
theorem register_method_error_conditions (func : ProcDecl) (reg : Registry) :
    ((∃ e, (register_method func reg).1 = .error e) ↔
      (func.modernrpc_enabled = false
        ∨ func.resolvedName.startsWith "rpc." = true
        ∨ ∃ m, lookupName reg func.resolvedName = some m ∧
            (RPCMethod.ofDecl func).pyEq m = false))
    ∧ (∀ e, (register_method func reg).1 = .error e →
        (register_method func reg).2 = reg) := by
  cases hen : func.modernrpc_enabled with
  | false =>
    constructor
    · simp [register_method, hen]
    · intro e _
      simp [register_method, hen]
  | true =>
    cases hpre : func.resolvedName.startsWith "rpc." with
    | true =>
      constructor
      · simp [register_method, hen, hpre]
      · intro e _
        simp [register_method, hen, hpre]
    | false =>
      cases hl : lookupName reg func.resolvedName with
      | none =>
        constructor
        · simp [register_method, hen, hpre, get_method_ALL_ALL, ofDecl_name, hl]
        · intro e he
          exfalso
          simp [register_method, hen, hpre, get_method_ALL_ALL, ofDecl_name, hl] at he
      | some ex =>
        cases hex : (RPCMethod.ofDecl func).pyEq ex with
        | true =>
          constructor
          · simp [register_method, hen, hpre, get_method_ALL_ALL, ofDecl_name,
              hl, hex]
          · intro e he
            exfalso
            simp [register_method, hen, hpre, get_method_ALL_ALL, ofDecl_name,
              hl, hex] at he
        | false =>
          constructor
          · simp [register_method, hen, hpre, get_method_ALL_ALL, ofDecl_name,
              hl, hex]
          · intro e _
            simp [register_method, hen, hpre, get_method_ALL_ALL, ofDecl_name,
              hl, hex]

/-- C4: registering a declaration whose built descriptor is equal (same
underlying procedure, name, entry point, protocol and authorization
predicates with parameters) to what a successful registration just stored is
idempotent: the same name is returned, and the registry — hence
`total_count` and the stored mapping — is unchanged. -/
theorem register_method_idempotent (func func₂ : ProcDecl) (reg reg₂ : Registry)
    (n : String) (h : register_method func reg = (Except.ok n, reg₂))
    (henabled : func₂.modernrpc_enabled = true)
    (heq : (RPCMethod.ofDecl func₂).pyEq (RPCMethod.ofDecl func) = true) :
    register_method func₂ reg₂ = (Except.ok n, reg₂)
    ∧ total_count (register_method func₂ reg₂).2 = total_count reg₂ := by
  have hname2 : func₂.resolvedName = func.resolvedName := pyEq_name heq
  cases hen : func.modernrpc_enabled with
  | false =>
    exfalso
    simp [register_method, hen] at h
  | true =>
    cases hpre : func.resolvedName.startsWith "rpc." with
    | true =>
      exfalso
      simp [register_method, hen, hpre] at h
    | false =>
      have hpre2 : func₂.resolvedName.startsWith "rpc." = false := by
        rw [hname2]; exact hpre
      cases hl : lookupName reg func.resolvedName with
      | some ex =>
        cases hex : (RPCMethod.ofDecl func).pyEq ex with
        | false =>
          exfalso
          simp [register_method, hen, hpre, get_method_ALL_ALL, ofDecl_name,
            hl, hex] at h
        | true =>
          have hreg : register_method func reg = (.ok func.resolvedName, reg) :=
            register_method_finds_equal func reg ex hen hpre hl hex
          rw [hreg] at h
          simp only [Prod.mk.injEq, Except.ok.injEq] at h
          obtain ⟨hn, hr⟩ := h
          have hl2 : lookupName reg₂ func₂.resolvedName = some ex := by
            rw [hname2, ← hr]; exact hl
          have hstep := register_method_finds_equal func₂ reg₂ ex henabled hpre2
            hl2 (pyEq_trans heq hex)
          rw [hstep, hname2, hn]
          exact ⟨rfl, rfl⟩
      | none =>
        have hreg : register_method func reg =
            (.ok func.resolvedName,
              reg ++ [(func.resolvedName, RPCMethod.ofDecl func)]) := by
          simp [register_method, hen, hpre, get_method_ALL_ALL, ofDecl_name, hl]
        rw [hreg] at h
        simp only [Prod.mk.injEq, Except.ok.injEq] at h
        obtain ⟨hn, hr⟩ := h
        have hl2 : lookupName reg₂ func₂.resolvedName =
            some (RPCMethod.ofDecl func) := by
          rw [hname2, ← hr]
          exact lookupName_append_self reg func.resolvedName _ hl
        have hstep := register_method_finds_equal func₂ reg₂ (RPCMethod.ofDecl func)
          henabled hpre2 hl2 heq
        rw [hstep, hname2, hn]
        exact ⟨rfl, rfl⟩

/-- A plain enabled declaration, for exercising registration. -/
def idemDecl : ProcDecl := ⟨7, "mth", true, none, .all, .all, none, [], emptyMeta⟩

/-- Witness for C4 at a concrete input: registering `idemDecl` into the empty
registry and then registering it again returns the same name and leaves the
registry untouched. -/
theorem register_method_idempotent_witness :
    register_method idemDecl (register_method idemDecl []).2 =
      (Except.ok "mth", (register_method idemDecl []).2)
    ∧ total_count (register_method idemDecl (register_method idemDecl []).2).2 =
        total_count (register_method idemDecl []).2 :=
  register_method_idempotent idemDecl idemDecl [] (register_method idemDecl []).2
    "mth" rfl rfl (by decide)

/-- A call descriptor whose (optional) params value has one of the types
`RpcRequest.__init__` accepts: a mapping or a list/set/tuple. -/
def CallDesc.goodParams (c : CallDesc) : Bool :=
  match c.params with
  | none => true
  | some p => p.isMapping || p.isSequenceLike

/-- Request construction succeeds exactly on accepted params shapes. -/
theorem make_ok_of_goodParams (c : CallDesc) (h : c.goodParams = true) :
    ∃ req, RpcRequest.make c.methodName c.params = .ok req := by
  cases hp : c.params with
  | none => exact ⟨_, rfl⟩
  | some p =>
    cases p with
    | other t =>
      exfalso
      simp [CallDesc.goodParams, hp, PyParams.isMapping,
        PyParams.isSequenceLike] at h
    | pdict kw => exact ⟨_, rfl⟩
    | plist l => exact ⟨_, rfl⟩
    | pset l => exact ⟨_, rfl⟩
    | ptuple l => exact ⟨_, rfl⟩

/-- A sub-call whose dispatch produced an error result contributes the fault
record built from the stored error triple. -/
theorem multicallStep_fault (process : RpcRequest → RpcResult) (c : CallDesc)
    (req : RpcRequest) (hreq : RpcRequest.make c.methodName c.params = .ok req)
    (he : pyTruthy (process req).is_error = true) (code : Int) (message : String)
    (d : Option PyVal) (hd : (process req).rdata = RRData.triple code message d) :
    multicallStep process c = .ok (.fault code message) := by
  unfold multicallStep
  rw [hreq]
  simp [he, RpcResult.error_code, RpcResult.error_message, hd]

/-- A sub-call whose dispatch succeeded contributes its payload wrapped in a
one-element list. -/
theorem multicallStep_success (process : RpcRequest → RpcResult) (c : CallDesc)
    (req : RpcRequest) (hreq : RpcRequest.make c.methodName c.params = .ok req)
    (he : pyTruthy (process req).is_error = false) :
    multicallStep process c = .ok (.success [(process req).success_data]) := by
  unfold multicallStep
  rw [hreq]
  simp [he]

/-- The multicall loop, over call descriptors with accepted params shapes and
a handler whose error results hold an error triple, produces one entry per
sub-call, in order, faults isolated. -/
theorem multicallList_spec (process : RpcRequest → RpcResult)
    (calls : List CallDesc) (hp : ∀ c ∈ calls, c.goodParams = true)
    (hw : ∀ req, pyTruthy (process req).is_error = true →
      ∃ code message d, (process req).rdata = RRData.triple code message d) :
    ∃ l, multicallList process calls = .ok l
      ∧ l.length = calls.length
      ∧ List.Forall₂ (fun c e => ∃ req,
          RpcRequest.make c.methodName c.params = .ok req ∧
          ((pyTruthy (process req).is_error = true ∧
            ∃ code message d,
              (process req).rdata = RRData.triple code message d ∧
              e = MCEntry.fault code message)
           ∨ (pyTruthy (process req).is_error = false ∧
              e = MCEntry.success [(process req).success_data]))) calls l := by
  induction calls with
  | nil => exact ⟨[], rfl, rfl, List.Forall₂.nil⟩
  | cons c rest ih =>
    have hc := hp c (List.mem_cons_self c rest)
    obtain ⟨l', hl', hlen', hfa'⟩ :=
      ih (fun x hx => hp x (List.mem_cons_of_mem c hx))
    obtain ⟨req, hreq⟩ := make_ok_of_goodParams c hc
    cases he : pyTruthy (process req).is_error with
    | true =>
      obtain ⟨code, message, d, hd⟩ := hw req he
      refine ⟨MCEntry.fault code message :: l', ?_, by simp [hlen'], ?_⟩
      · unfold multicallList
        rw [multicallStep_fault process c req hreq he code message d hd, hl']
      · exact List.Forall₂.cons
          ⟨req, hreq, Or.inl ⟨he, code, message, d, hd, rfl⟩⟩ hfa'
    | false =>
      refine ⟨MCEntry.success [(process req).success_data] :: l', ?_,
        by simp [hlen'], ?_⟩
      · unfold multicallList
        rw [multicallStep_success process c req hreq he, hl']
      · exact List.Forall₂.cons ⟨req, hreq, Or.inr ⟨he, rfl⟩⟩ hfa'

/-- C2 (amended): a non-list input makes `system.multicall` raise the
invalid-params fault; a list input — provided every sub-call's supplied
params value is of an accepted shape (mapping or list/set/tuple), and the
handler's error results carry the error triple — yields one output entry per
sub-call in input order, the fault record `{faultCode, faultString}` for an
error result and the one-element list wrapping the success payload otherwise,
with no sub-call's failure preventing the later sub-calls from being
dispatched. -/
theorem multicall_spec (process : RpcRequest → RpcResult) (calls : List CallDesc)
    (hp : ∀ c ∈ calls, c.goodParams = true)
    (hw : ∀ req, pyTruthy (process req).is_error = true →
      ∃ code message d, (process req).rdata = RRData.triple code message d) :
    (∀ t, ∃ e, system_multi_call process (.nonList t) = .error e)
    ∧ ∃ l, system_multi_call process (.lst calls) = .ok l
        ∧ l.length = calls.length
        ∧ List.Forall₂ (fun c e => ∃ req,
            RpcRequest.make c.methodName c.params = .ok req ∧
            ((pyTruthy (process req).is_error = true ∧
              ∃ code message d,
                (process req).rdata = RRData.triple code message d ∧
                e = MCEntry.fault code message)
             ∨ (pyTruthy (process req).is_error = false ∧
                e = MCEntry.success [(process req).success_data]))) calls l :=
  ⟨fun _ => ⟨_, rfl⟩, multicallList_spec process calls hp hw⟩

/-- A handler for exercising multicall: "add" dispatches to a success result
with payload 5, every other name to a method-not-found error result. -/
def witProcess : RpcRequest → RpcResult := fun req =>
  if req.method_name == "add" then (RpcResult.init none).set_success (.int 5)
  else (RpcResult.init none).set_error (-32601) "Method not found" none

/-- The spec's example call list. -/
def witCalls : List CallDesc :=
  [⟨"add", some (.plist [.int 2, .int 3])⟩, ⟨"missing", none⟩]

/-- Witness for C2's theorem at a concrete input: the spec's example batch
against `witProcess`. -/
theorem multicall_spec_witness :
    (∀ t, ∃ e, system_multi_call witProcess (.nonList t) = .error e)
    ∧ ∃ l, system_multi_call witProcess (.lst witCalls) = .ok l
        ∧ l.length = witCalls.length
        ∧ List.Forall₂ (fun c e => ∃ req,
            RpcRequest.make c.methodName c.params = .ok req ∧
            ((pyTruthy (witProcess req).is_error = true ∧
              ∃ code message d,
                (witProcess req).rdata = RRData.triple code message d ∧
                e = MCEntry.fault code message)
             ∨ (pyTruthy (witProcess req).is_error = false ∧
                e = MCEntry.success [(witProcess req).success_data]))) witCalls l :=
  multicall_spec witProcess witCalls (by decide)
    (by
      intro req h
      by_cases hm : (req.method_name == "add") = true
      · exfalso
        simp [witProcess, hm, RpcResult.is_error, RpcResult.set_success,
          RpcResult.init, pyTruthy] at h
      · exact ⟨-32601, "Method not found", none, by
          simp [witProcess, hm, RpcResult.set_error, RpcResult.init]⟩)

/-- The spec's example batch evaluated outright: success payload wrapped in a
one-element list, fault struct for the failing sub-call, in input order. -/
theorem multicall_example_eval :
    system_multi_call witProcess (.lst witCalls) =
      .ok [MCEntry.success [RRData.payload (.int 5)],
        MCEntry.fault (-32601) "Method not found"] := rfl

/-- C2 counterexample to the claim as stated: a list input whose second
sub-call carries a params value of an unsupported type makes the whole
multicall raise (the request constructor's `ValueError` propagates), so no
list is returned at all — the first sub-call's result is lost and the third
sub-call is never dispatched, although the input is a list of three call
descriptors. -/
theorem multicall_unsupported_params_cex :
    system_multi_call witProcess
      (MulticallArg.lst [⟨"add", some (.plist [.int 2, .int 3])⟩,
        ⟨"bad", some (.other "int")⟩, ⟨"add", none⟩]) =
      .error "RPCRequest initial params has an unsupported type: int" := rfl

end ModernRpc
